import Mathlib

/-!
# CodeCatalyst project resource: reconciliation protocol

A shallow embedding of `internal/service/codecatalyst/project.go`.

* Go pointers to strings (`*string`) are `Option String`; `nil` is `none`.
* A Go `error` value is `Option GoError`; `nil` is `none`.
* The remote service is an explicit state machine: every client call takes
  the remote state and returns the response together with the next state.
* Every lifecycle operation returns an `Outcome`: the diagnostics, the local
  record after the call, the remote state after the call and the ordered
  list of requests the operation sent.
-/

namespace codecatalyst

/-! ## Request and response shapes of the remote API -/

/-- Request of `CreateProject`. -/
structure CreateProjectInput where
  DisplayName : Option String
  SpaceName : Option String
  Description : Option String
deriving DecidableEq, Repr

/-- Response of `CreateProject`. -/
structure CreateProjectOutput where
  Name : Option String
  DisplayName : Option String
  SpaceName : Option String
  Description : Option String
deriving DecidableEq, Repr

/-- Request of `GetProject`. -/
structure GetProjectInput where
  Name : Option String
  SpaceName : Option String
deriving DecidableEq, Repr

/-- Response of `GetProject`. -/
structure GetProjectOutput where
  Name : Option String
  DisplayName : Option String
  SpaceName : Option String
  Description : Option String
deriving DecidableEq, Repr

/-- Request of `UpdateProject`. -/
structure UpdateProjectInput where
  Name : Option String
  SpaceName : Option String
  Description : Option String
deriving DecidableEq, Repr

/-- Request of `DeleteProject`. -/
structure DeleteProjectInput where
  Name : Option String
  SpaceName : Option String
deriving DecidableEq, Repr

/-! ## Errors -/

/-- Go error values that occur in this file. `OperationError` is the wrapper
the service client puts around a failure (it has `Unwrap`); `NotFoundError`
is `retry.NotFoundError`, which unwraps to its `LastError`. -/
inductive GoError where
  | ResourceNotFoundException (Message : String)
  | AccessDeniedException (Message : String)
  | GenericAPIError (Code : String) (Message : String)
  | errorString (s : String)
  | OperationError (OperationName : String) (Err : GoError)
  | NotFoundError (LastError : GoError) (LastRequest : GetProjectInput)
  | EmptyResultError (LastRequest : GetProjectInput)
deriving DecidableEq, Repr

/-- Type test for `*types.ResourceNotFoundException`. -/
def GoError.isResourceNotFoundException : GoError → Bool
  | .ResourceNotFoundException _ => true
  | _ => false

/-- Type test for `*types.AccessDeniedException`. -/
def GoError.isAccessDeniedException : GoError → Bool
  | .AccessDeniedException _ => true
  | _ => false

/-- Type test for `*retry.NotFoundError`. -/
def GoError.isNotFoundError : GoError → Bool
  | .NotFoundError _ _ => true
  | _ => false

/-- Go `errors.As` on a non-nil error: the error itself or one in its
`Unwrap` chain has the target type. -/
def errors.As (target : GoError → Bool) : GoError → Bool
  | .OperationError n e => target (.OperationError n e) || errors.As target e
  | .NotFoundError e r => target (.NotFoundError e r) || errors.As target e
  | e => target e

/-- Modelled from the spec: `errs.IsA[T]` of `internal/errs`, which is not
part of the source file: the error is non-nil and is, or wraps, a `T`. -/
def errs.IsA (target : GoError → Bool) : Option GoError → Bool
  | none => false
  | some e => errors.As target e

/-- Modelled from the spec: `tfresource.NotFound` of `internal/tfresource`,
which is not part of the source file: the error is the distinguished
not-found error (`*retry.NotFoundError`) or wraps one. -/
def tfresource.NotFound (err : Option GoError) : Bool :=
  errs.IsA GoError.isNotFoundError err

/-- Modelled from the spec: `tfresource.NewEmptyResultError` of
`internal/tfresource`, which is not part of the source file: the
distinguished empty-result error carrying the request. -/
def tfresource.NewEmptyResultError (lastRequest : GetProjectInput) : GoError :=
  .EmptyResultError lastRequest

/-- Go `string`. -/
abbrev GoString := String

/-- `aws.ToString`: the pointed-to string, the empty string for `nil`. -/
def aws.ToString (p : Option GoString) : GoString := p.getD ""

/-- `aws.String`: a non-nil pointer to the string. -/
def aws.String (s : GoString) : Option GoString := some s

/-! ## Diagnostics -/

/-- Severity of a diagnostic. -/
inductive Severity where
  | Error
  | Warning
deriving DecidableEq, Repr

/-- One structured failure record: service, action, resource kind, resource
identifier and the cause. -/
structure Diagnostic where
  Severity : Severity
  Service : String
  Action : String
  Resource : String
  ID : String
  Err : GoError
deriving DecidableEq, Repr

/-- The `diag.Diagnostics` list. -/
abbrev Diagnostics := List Diagnostic

/-- Service name constant `names.CodeCatalyst`. -/
def names.CodeCatalyst : String := "codecatalyst"

/-- Action tag `create.ErrActionCreating`. -/
def create.ErrActionCreating : String := "creating"

/-- Action tag `create.ErrActionReading`. -/
def create.ErrActionReading : String := "reading"

/-- Action tag `create.ErrActionUpdating`. -/
def create.ErrActionUpdating : String := "updating"

/-- Action tag `create.ErrActionDeleting`. -/
def create.ErrActionDeleting : String := "deleting"

/-- Modelled from the spec: `create.DiagError` of `internal/create`, which is
not part of the source file: one error diagnostic tagged with the action,
the resource kind and the resource identifier. -/
def create.DiagError (service action resource id : String) (gotError : GoError) :
    Diagnostics :=
  [{ Severity := .Error, Service := service, Action := action, Resource := resource,
     ID := id, Err := gotError }]

/-- Resource kind constant of the source file. -/
def ResNameProject : String := "Project"

/-! ## The local record (`schema.ResourceData`) -/

/-- The four string attributes of the resource schema. -/
inductive Key where
  | space_name
  | description
  | display_name
  | name
deriving DecidableEq, Repr

/-- Attribute values, one per schema key. -/
structure Attrs where
  space_name : String
  description : String
  display_name : String
  name : String
deriving DecidableEq, Repr

/-- Last observed state of the record: what change detection compares with. -/
structure InstanceState where
  ID : String
  Attributes : Attrs
deriving DecidableEq, Repr

/-- The local record handed to every lifecycle operation. -/
structure ResourceData where
  state : InstanceState
  id : String
  isNew : Bool
  attrs : Attrs
deriving DecidableEq, Repr

/-- Read one attribute of a set of attribute values. -/
def Attrs.get (a : Attrs) : Key → String
  | .space_name => a.space_name
  | .description => a.description
  | .display_name => a.display_name
  | .name => a.name

/-- Accessor `d.Id()`. -/
def ResourceData.Id (d : ResourceData) : String := d.id

/-- Mutator `d.SetId(v)`. -/
def ResourceData.SetId (d : ResourceData) (v : String) : ResourceData :=
  { d with id := v }

/-- Accessor `d.IsNewResource()`. -/
def ResourceData.IsNewResource (d : ResourceData) : Bool := d.isNew

/-- Accessor `d.Get(key).(string)`. -/
def ResourceData.Get (d : ResourceData) (k : Key) : String := d.attrs.get k

/-- Mutator `d.Set(key, value)` for a `*string` value: a nil pointer stores
the empty string. -/
def ResourceData.Set (d : ResourceData) (k : Key) (v : Option String) : ResourceData :=
  match k with
  | .space_name => { d with attrs := { d.attrs with space_name := aws.ToString v } }
  | .description => { d with attrs := { d.attrs with description := aws.ToString v } }
  | .display_name => { d with attrs := { d.attrs with display_name := aws.ToString v } }
  | .name => { d with attrs := { d.attrs with name := aws.ToString v } }

/-- Change detection `d.HasChange(key)`: the current value differs from the
last observed one. -/
def ResourceData.HasChange (d : ResourceData) (k : Key) : Bool :=
  decide (d.state.Attributes.get k ≠ d.attrs.get k)

/-- Change detection `d.HasChanges(keys...)`: some listed key has changed. -/
def ResourceData.HasChanges (d : ResourceData) (keys : List Key) : Bool :=
  keys.any d.HasChange

/-! ## The remote service and the outcome of an operation -/

/-- The remote API client over a remote state `σ`. Each call returns the
response pointer, the error and the next remote state; the responses of
update and delete are discarded by the source and left out. -/
structure Client (σ : Type) where
  CreateProject : σ → CreateProjectInput → (Option CreateProjectOutput × Option GoError) × σ
  GetProject : σ → GetProjectInput → (Option GetProjectOutput × Option GoError) × σ
  UpdateProject : σ → UpdateProjectInput → Option GoError × σ
  DeleteProject : σ → DeleteProjectInput → Option GoError × σ

/-- A request sent to the remote service. -/
inductive Call where
  | CreateProject (input : CreateProjectInput)
  | GetProject (input : GetProjectInput)
  | UpdateProject (input : UpdateProjectInput)
  | DeleteProject (input : DeleteProjectInput)
deriving DecidableEq, Repr

/-- What a lifecycle operation leaves behind. -/
structure Outcome (σ : Type) where
  diags : Diagnostics
  d : ResourceData
  remote : σ
  calls : List Call

/-- What `findProjectByName` returns, with the remote state after its call
and the request it sent. -/
structure FindResult (σ : Type) where
  out : Option GetProjectOutput
  err : Option GoError
  remote : σ
  calls : List Call

/-! ## The operations of `project.go` -/

/-- Finder `findProjectByName`. The `none` branch under the classifier test
is never taken: `errs.IsA` is false on a nil error. -/
def findProjectByName {σ : Type} (conn : Client σ) (id : String)
    (spaceName : Option String) (s : σ) : FindResult σ :=
  let input : GetProjectInput := { Name := aws.String id, SpaceName := spaceName }
  let r := conn.GetProject s input
  let out := r.1.1
  let err := r.1.2
  if errs.IsA GoError.isAccessDeniedException err
      || errs.IsA GoError.isResourceNotFoundException err then
    match err with
    | some e => ⟨none, some (.NotFoundError e input), r.2, [.GetProject input]⟩
    | none => ⟨none, none, r.2, [.GetProject input]⟩
  else
    match err with
    | some e => ⟨none, some e, r.2, [.GetProject input]⟩
    | none =>
      match out with
      | none => ⟨none, some (tfresource.NewEmptyResultError input), r.2, [.GetProject input]⟩
      | some o =>
        if o.Name = none then
          ⟨none, some (tfresource.NewEmptyResultError input), r.2, [.GetProject input]⟩
        else ⟨some o, none, r.2, [.GetProject input]⟩

/-- Lifecycle operation `resourceProjectRead`. The last branch (no error and
no object) is never taken: `findProjectByName` returns an object whenever it
returns no error. -/
def resourceProjectRead {σ : Type} (conn : Client σ) (d : ResourceData) (s : σ) :
    Outcome σ :=
  let spaceName := aws.String (d.Get .space_name)
  let f := findProjectByName conn d.Id spaceName s
  if !d.IsNewResource && tfresource.NotFound f.err then
    ⟨[], d.SetId "", f.remote, f.calls⟩
  else
    match f.err with
    | some err =>
      ⟨create.DiagError names.CodeCatalyst create.ErrActionReading ResNameProject d.Id err,
        d, f.remote, f.calls⟩
    | none =>
      match f.out with
      | some out =>
        ⟨[], ((d.Set .name out.Name).Set .space_name out.SpaceName).Set .description
          out.Description, f.remote, f.calls⟩
      | none => ⟨[], d, f.remote, f.calls⟩

/-- Lifecycle operation `resourceProjectCreate`. -/
def resourceProjectCreate {σ : Type} (conn : Client σ) (d : ResourceData) (s : σ) :
    Outcome σ :=
  let input : CreateProjectInput :=
    { DisplayName := aws.String (d.Get .display_name),
      SpaceName := aws.String (d.Get .space_name),
      Description := aws.String (d.Get .description) }
  let r := conn.CreateProject s input
  match r.1.2 with
  | some err =>
    ⟨create.DiagError names.CodeCatalyst create.ErrActionCreating ResNameProject
      (d.Get .display_name) err, d, r.2, [.CreateProject input]⟩
  | none =>
    match r.1.1 with
    | none =>
      ⟨create.DiagError names.CodeCatalyst create.ErrActionCreating ResNameProject
        (d.Get .display_name) (.errorString "empty output"), d, r.2, [.CreateProject input]⟩
    | some out =>
      if out.Name = none then
        ⟨create.DiagError names.CodeCatalyst create.ErrActionCreating ResNameProject
          (d.Get .display_name) (.errorString "empty output"), d, r.2,
          [.CreateProject input]⟩
      else
        let rd := resourceProjectRead conn (d.SetId (aws.ToString out.Name)) r.2
        ⟨rd.diags, rd.d, rd.remote, .CreateProject input :: rd.calls⟩

/-- Lifecycle operation `resourceProjectUpdate`. The read it ends with,
`resourceDevEnvironmentRead`, lives in another file of the package and is a
parameter here. -/
def resourceProjectUpdate {σ : Type} (conn : Client σ)
    (resourceDevEnvironmentRead : ResourceData → σ → Outcome σ)
    (d : ResourceData) (s : σ) : Outcome σ :=
  let in0 : UpdateProjectInput :=
    { Name := aws.String (d.Get .display_name),
      SpaceName := aws.String (d.Get .space_name),
      Description := aws.String (d.Get .description) }
  let changed := d.HasChanges [.description]
  let input : UpdateProjectInput :=
    if changed then { in0 with Description := aws.String (d.Get .description) } else in0
  let update := changed
  if !update then
    ⟨[], d, s, []⟩
  else
    let r := conn.UpdateProject s input
    match r.1 with
    | some err =>
      ⟨create.DiagError names.CodeCatalyst create.ErrActionUpdating ResNameProject d.Id err,
        d, r.2, [.UpdateProject input]⟩
    | none =>
      let rd := resourceDevEnvironmentRead d r.2
      ⟨rd.diags, rd.d, rd.remote, .UpdateProject input :: rd.calls⟩

/-- Lifecycle operation `resourceProjectDelete`. -/
def resourceProjectDelete {σ : Type} (conn : Client σ) (d : ResourceData) (s : σ) :
    Outcome σ :=
  let input : DeleteProjectInput :=
    { Name := aws.String d.Id, SpaceName := aws.String (d.Get .space_name) }
  let r := conn.DeleteProject s input
  match r.1 with
  | some err =>
    if errors.As GoError.isResourceNotFoundException err then
      ⟨[], d, r.2, [.DeleteProject input]⟩
    else
      ⟨create.DiagError names.CodeCatalyst create.ErrActionDeleting ResNameProject d.Id err,
        d, r.2, [.DeleteProject input]⟩
  | none => ⟨[], d, r.2, [.DeleteProject input]⟩

/-! ## Sample remotes and records -/

/-- The not-found failure the sample remote answers with. -/
def sampleNotFound : GoError :=
  .OperationError "codecatalyst" (.ResourceNotFoundException "project not found")

/-- A remote that stores at most one project. It assigns the name `p-1` to a
created project, whatever its display name, and answers a request for any
other (name, space) pair with resource-not-found. -/
def memService : Client (Option GetProjectOutput) where
  CreateProject := fun _ input =>
    ((some { Name := some "p-1", DisplayName := input.DisplayName,
             SpaceName := input.SpaceName, Description := input.Description }, none),
     some { Name := some "p-1", DisplayName := input.DisplayName,
            SpaceName := input.SpaceName, Description := input.Description })
  GetProject := fun s input =>
    match s with
    | some p =>
      if p.Name = input.Name ∧ p.SpaceName = input.SpaceName then ((some p, none), s)
      else ((none, some sampleNotFound), s)
    | none => ((none, some sampleNotFound), s)
  UpdateProject := fun s input =>
    match s with
    | some p =>
      if p.Name = input.Name ∧ p.SpaceName = input.SpaceName then
        (none, some { p with Description := input.Description })
      else (some sampleNotFound, s)
    | none => (some sampleNotFound, s)
  DeleteProject := fun s input =>
    match s with
    | some p =>
      if p.Name = input.Name ∧ p.SpaceName = input.SpaceName then (none, none)
      else (some sampleNotFound, s)
    | none => (some sampleNotFound, s)

/-- A remote that refuses every request with access-denied. -/
def deniedService : Client Unit where
  CreateProject := fun s _ => ((none, some (.AccessDeniedException "denied")), s)
  GetProject := fun s _ => ((none, some (.AccessDeniedException "denied")), s)
  UpdateProject := fun s _ => (some (.AccessDeniedException "denied"), s)
  DeleteProject := fun s _ => (some (.AccessDeniedException "denied"), s)

/-- A remote whose get call succeeds with a response that has no name. -/
def namelessService : Client Unit where
  CreateProject := fun s _ => ((none, none), s)
  GetProject := fun s _ =>
    ((some { Name := none, DisplayName := none, SpaceName := none, Description := none },
      none), s)
  UpdateProject := fun s _ => (none, s)
  DeleteProject := fun s _ => (none, s)

/-- A record of an existing project `p-1` in `space1` whose description was
edited from `old` to `new` and whose display name is not its identifier. -/
def editedRecord : ResourceData :=
  { state := { ID := "p-1", Attributes := { space_name := "space1", description := "old",
                                            display_name := "My Project", name := "p-1" } },
    id := "p-1", isNew := false,
    attrs := { space_name := "space1", description := "new",
               display_name := "My Project", name := "p-1" } }

/-- The project `p-1` as the sample remote stores it. -/
def storedProject : GetProjectOutput :=
  { Name := some "p-1", DisplayName := some "My Project", SpaceName := some "space1",
    Description := some "old" }

/-! ## Requests and conditions named in the statements -/

/-- The request `resourceProjectDelete` sends for a record. -/
def deleteRequest (d : ResourceData) : DeleteProjectInput :=
  { Name := aws.String d.Id, SpaceName := aws.String (d.Get .space_name) }

/-- The delete call is answered with success or with an error that is, or
wraps, a resource-not-found exception. -/
def deleteTolerated (err : Option GoError) : Prop :=
  err = none ∨ ∃ e, err = some e ∧ errors.As GoError.isResourceNotFoundException e = true

/-- The request `findProjectByName` sends when `resourceProjectRead` calls it
for a record. -/
def getRequest (d : ResourceData) : GetProjectInput :=
  { Name := aws.String d.Id, SpaceName := aws.String (d.Get .space_name) }

/-- The diagnostic `resourceProjectRead` reports for a failure `e`. -/
def readingDiagnostic (d : ResourceData) (e : GoError) : Diagnostic :=
  { Severity := .Error, Service := "codecatalyst", Action := "reading",
    Resource := "Project", ID := d.Id, Err := e }

/-- The request `resourceProjectCreate` sends for a record. -/
def createRequest (d : ResourceData) : CreateProjectInput :=
  { DisplayName := aws.String (d.Get .display_name),
    SpaceName := aws.String (d.Get .space_name),
    Description := aws.String (d.Get .description) }

/-- A record that was just created: identifier `p-1`, flagged as new. -/
def freshRecord : ResourceData :=
  { state := { ID := "", Attributes := { space_name := "", description := "",
                                         display_name := "", name := "" } },
    id := "p-1", isNew := true,
    attrs := { space_name := "space1", description := "", display_name := "proj1",
               name := "" } }

/-- A record before creation: no identifier yet. -/
def plannedRecord : ResourceData :=
  { state := { ID := "", Attributes := { space_name := "", description := "",
                                         display_name := "", name := "" } },
    id := "", isNew := true,
    attrs := { space_name := "space1", description := "", display_name := "proj1",
               name := "" } }

/-- A remote that normalizes what it stores: the create call answers with the
name `proj1`, every get call answers with the name `PROJ1` and the
description `n/a`. -/
def normalizingService : Client Unit where
  CreateProject := fun s input =>
    ((some { Name := some "proj1", DisplayName := input.DisplayName,
             SpaceName := input.SpaceName, Description := input.Description }, none), s)
  GetProject := fun s input =>
    ((some { Name := some "PROJ1", DisplayName := some "proj1",
             SpaceName := input.SpaceName, Description := some "n/a" }, none), s)
  UpdateProject := fun s _ => (none, s)
  DeleteProject := fun s _ => (none, s)

/-- The request `resourceProjectUpdate` builds for a record. -/
def updateRequest (d : ResourceData) : UpdateProjectInput :=
  { Name := aws.String (d.Get .display_name),
    SpaceName := aws.String (d.Get .space_name),
    Description := aws.String (d.Get .description) }

/-- A record of the project `p-1` whose display name equals its identifier
and whose description was edited from `old` to `new`. -/
def syncedRecord : ResourceData :=
  { state := { ID := "p-1", Attributes := { space_name := "space1", description := "old",
                                            display_name := "p-1", name := "p-1" } },
    id := "p-1", isNew := false,
    attrs := { space_name := "space1", description := "new",
               display_name := "p-1", name := "p-1" } }

/-- The project `p-1` with display name `p-1`, as the sample remote stores it. -/
def storedSynced : GetProjectOutput :=
  { Name := some "p-1", DisplayName := some "p-1", SpaceName := some "space1",
    Description := some "old" }

/-- A stand-in for the read of another resource kind: it finds no object of
its own kind under the identifier and clears the identifier. -/
def foreignRead {σ : Type} (d : ResourceData) (s : σ) : Outcome σ :=
  ⟨[], d.SetId "", s, []⟩

/-! # Theorems -/

/-! ## Delete: lemmas -/

theorem resourceProjectDelete_d {σ : Type} (conn : Client σ) (d : ResourceData) (s : σ) :
    (resourceProjectDelete conn d s).d = d := by
  unfold resourceProjectDelete
  simp only []
  split
  · split <;> rfl
  · rfl

theorem resourceProjectDelete_remote {σ : Type} (conn : Client σ) (d : ResourceData) (s : σ) :
    (resourceProjectDelete conn d s).remote = (conn.DeleteProject s (deleteRequest d)).2 := by
  unfold resourceProjectDelete deleteRequest
  simp only []
  split
  · split <;> rfl
  · rfl

theorem resourceProjectDelete_diags_of_tolerated {σ : Type} (conn : Client σ)
    (d : ResourceData) (s : σ)
    (h : deleteTolerated (conn.DeleteProject s (deleteRequest d)).1) :
    (resourceProjectDelete conn d s).diags = [] := by
  unfold deleteRequest at h
  unfold resourceProjectDelete
  simp only []
  rcases h with h | ⟨e, he, hAs⟩
  · rw [h]
  · rw [he]; simp only [hAs, if_true]

/-- The diagnostic `resourceProjectDelete` reports for a failure `e`. -/
theorem resourceProjectDelete_diags_of_other {σ : Type} (conn : Client σ)
    (d : ResourceData) (s : σ) (e : GoError)
    (he : (conn.DeleteProject s (deleteRequest d)).1 = some e)
    (hAs : errors.As GoError.isResourceNotFoundException e = false) :
    (resourceProjectDelete conn d s).diags =
      [{ Severity := .Error, Service := "codecatalyst", Action := "deleting",
         Resource := "Project", ID := d.Id, Err := e }] := by
  unfold deleteRequest at he
  unfold resourceProjectDelete
  simp only []
  rw [he]
  simp only [hAs]
  rfl

/-! ## C1 -/

/-- C1 (as stated, refuted at a concrete input): the sample remote stores the
project `p-1`, its delete call succeeds, `resourceProjectDelete` returns no
diagnostics, and the identifier of the record is still `p-1` afterwards, not
the empty string. -/
theorem C1_delete_keeps_identifier :
    (memService.DeleteProject (some storedProject) (deleteRequest editedRecord)).1 = none ∧
    (resourceProjectDelete memService editedRecord (some storedProject)).diags = [] ∧
    (resourceProjectDelete memService editedRecord (some storedProject)).d.Id = "p-1" ∧
    (resourceProjectDelete memService editedRecord (some storedProject)).d.Id ≠ "" := by
  decide

/-- C1 (amended): when the delete call succeeds or fails with a
resource-not-found error, `resourceProjectDelete` returns no diagnostics and
leaves the record, identifier included, as it was; a second Delete on the
same record, the remote now answering not-found, again returns no
diagnostics and leaves the record as it was. -/
theorem C1_delete_idempotent_record_kept {σ : Type} (conn : Client σ) (d : ResourceData)
    (s : σ)
    (h1 : deleteTolerated (conn.DeleteProject s (deleteRequest d)).1)
    (h2 : ∃ e, (conn.DeleteProject (resourceProjectDelete conn d s).remote
              (deleteRequest d)).1 = some e ∧
            errors.As GoError.isResourceNotFoundException e = true) :
    (resourceProjectDelete conn d s).diags = [] ∧
    (resourceProjectDelete conn d s).d = d ∧
    (resourceProjectDelete conn (resourceProjectDelete conn d s).d
        (resourceProjectDelete conn d s).remote).diags = [] ∧
    (resourceProjectDelete conn (resourceProjectDelete conn d s).d
        (resourceProjectDelete conn d s).remote).d = d := by
  have hd := resourceProjectDelete_d conn d s
  refine ⟨resourceProjectDelete_diags_of_tolerated conn d s h1, hd, ?_, ?_⟩
  · rw [hd]
    exact resourceProjectDelete_diags_of_tolerated conn d _ (Or.inr h2)
  · rw [hd]
    exact resourceProjectDelete_d conn d _

/-- C1 (amended), at the sample remote holding `p-1`: the first Delete
succeeds, the second is answered with not-found. -/
theorem C1_delete_idempotent_record_kept_witness :
    (resourceProjectDelete memService editedRecord (some storedProject)).diags = [] ∧
    (resourceProjectDelete memService editedRecord (some storedProject)).d = editedRecord ∧
    (resourceProjectDelete memService
        (resourceProjectDelete memService editedRecord (some storedProject)).d
        (resourceProjectDelete memService editedRecord (some storedProject)).remote).diags
      = [] ∧
    (resourceProjectDelete memService
        (resourceProjectDelete memService editedRecord (some storedProject)).d
        (resourceProjectDelete memService editedRecord (some storedProject)).remote).d
      = editedRecord :=
  C1_delete_idempotent_record_kept memService editedRecord (some storedProject)
    (Or.inl (by decide)) ⟨sampleNotFound, by decide, by decide⟩

/-! ## C7 -/

/-- C7: `resourceProjectDelete` returns no diagnostics exactly when the
delete call returns no error or an error that is, or wraps, a
resource-not-found exception; every other error, an access-denied error in
particular, gives one diagnostic tagged `deleting`, `Project` and the
identifier of the record. -/
theorem C7_delete_error_classification {σ : Type} (conn : Client σ) (d : ResourceData)
    (s : σ) :
    ((resourceProjectDelete conn d s).diags = [] ↔
      deleteTolerated (conn.DeleteProject s (deleteRequest d)).1) ∧
    (∀ e, (conn.DeleteProject s (deleteRequest d)).1 = some e →
      errors.As GoError.isResourceNotFoundException e = false →
      (resourceProjectDelete conn d s).diags =
        [{ Severity := .Error, Service := "codecatalyst", Action := "deleting",
           Resource := "Project", ID := d.Id, Err := e }]) ∧
    (∀ m, (conn.DeleteProject s (deleteRequest d)).1 = some (.AccessDeniedException m) →
      (resourceProjectDelete conn d s).diags =
        [{ Severity := .Error, Service := "codecatalyst", Action := "deleting",
           Resource := "Project", ID := d.Id, Err := .AccessDeniedException m }]) := by
  refine ⟨⟨?_, resourceProjectDelete_diags_of_tolerated conn d s⟩, ?_, ?_⟩
  · intro h
    cases herr : (conn.DeleteProject s (deleteRequest d)).1 with
    | none => exact Or.inl rfl
    | some e =>
      cases hAs : errors.As GoError.isResourceNotFoundException e with
      | true => exact Or.inr ⟨e, rfl, hAs⟩
      | false =>
        rw [resourceProjectDelete_diags_of_other conn d s e herr hAs] at h
        exact absurd h (by simp)
  · intro e he hAs
    exact resourceProjectDelete_diags_of_other conn d s e he hAs
  · intro m he
    exact resourceProjectDelete_diags_of_other conn d s _ he rfl

/-! ## Finder and Read: lemmas -/

theorem findProjectByName_of_masked {σ : Type} (conn : Client σ) (id : String)
    (spaceName : Option String) (s : σ) (e : GoError)
    (he : (conn.GetProject s { Name := aws.String id, SpaceName := spaceName }).1.2 = some e)
    (hk : (errors.As GoError.isAccessDeniedException e
            || errors.As GoError.isResourceNotFoundException e) = true) :
    findProjectByName conn id spaceName s =
      ⟨none, some (.NotFoundError e { Name := aws.String id, SpaceName := spaceName }),
        (conn.GetProject s { Name := aws.String id, SpaceName := spaceName }).2,
        [.GetProject { Name := aws.String id, SpaceName := spaceName }]⟩ := by
  unfold findProjectByName
  simp only [he, errs.IsA, hk, if_true]

theorem findProjectByName_of_nameless {σ : Type} (conn : Client σ) (id : String)
    (spaceName : Option String) (s : σ)
    (he : (conn.GetProject s { Name := aws.String id, SpaceName := spaceName }).1.2 = none)
    (ho : ∀ o, (conn.GetProject s { Name := aws.String id, SpaceName := spaceName }).1.1
            = some o → o.Name = none) :
    findProjectByName conn id spaceName s =
      ⟨none, some (.EmptyResultError { Name := aws.String id, SpaceName := spaceName }),
        (conn.GetProject s { Name := aws.String id, SpaceName := spaceName }).2,
        [.GetProject { Name := aws.String id, SpaceName := spaceName }]⟩ := by
  unfold findProjectByName
  simp only [he, errs.IsA, Bool.or_self, Bool.false_eq_true, if_false]
  cases hout : (conn.GetProject s { Name := aws.String id, SpaceName := spaceName }).1.1 with
  | none => rfl
  | some o => simp only [ho o hout, if_true]; rfl

theorem findProjectByName_of_found {σ : Type} (conn : Client σ) (id : String)
    (spaceName : Option String) (s : σ) (o : GetProjectOutput)
    (he : (conn.GetProject s { Name := aws.String id, SpaceName := spaceName }).1.2 = none)
    (ho : (conn.GetProject s { Name := aws.String id, SpaceName := spaceName }).1.1 = some o)
    (hn : o.Name ≠ none) :
    findProjectByName conn id spaceName s =
      ⟨some o, none,
        (conn.GetProject s { Name := aws.String id, SpaceName := spaceName }).2,
        [.GetProject { Name := aws.String id, SpaceName := spaceName }]⟩ := by
  unfold findProjectByName
  simp only [he, ho, errs.IsA, Bool.or_self, Bool.false_eq_true, if_false, hn]

theorem resourceProjectRead_of_drift {σ : Type} (conn : Client σ) (d : ResourceData) (s : σ)
    (hnew : d.IsNewResource = false)
    (hnf : tfresource.NotFound
      (findProjectByName conn d.Id (aws.String (d.Get .space_name)) s).err = true) :
    resourceProjectRead conn d s =
      ⟨[], d.SetId "",
        (findProjectByName conn d.Id (aws.String (d.Get .space_name)) s).remote,
        (findProjectByName conn d.Id (aws.String (d.Get .space_name)) s).calls⟩ := by
  unfold resourceProjectRead
  simp only [hnew, hnf, Bool.not_false, Bool.and_self, if_true]

theorem resourceProjectRead_of_error {σ : Type} (conn : Client σ) (d : ResourceData) (s : σ)
    (e : GoError)
    (hgate : d.IsNewResource = true ∨ tfresource.NotFound (some e) = false)
    (he : (findProjectByName conn d.Id (aws.String (d.Get .space_name)) s).err = some e) :
    resourceProjectRead conn d s =
      ⟨[readingDiagnostic d e], d,
        (findProjectByName conn d.Id (aws.String (d.Get .space_name)) s).remote,
        (findProjectByName conn d.Id (aws.String (d.Get .space_name)) s).calls⟩ := by
  unfold resourceProjectRead
  simp only [he]
  have hg : (!d.IsNewResource && tfresource.NotFound (some e)) = false := by
    rcases hgate with h | h
    · rw [h]; rfl
    · rw [h]; simp
  simp only [hg, Bool.false_eq_true, if_false]
  rfl

theorem resourceProjectRead_of_found {σ : Type} (conn : Client σ) (d : ResourceData) (s : σ)
    (o : GetProjectOutput)
    (he : (findProjectByName conn d.Id (aws.String (d.Get .space_name)) s).err = none)
    (ho : (findProjectByName conn d.Id (aws.String (d.Get .space_name)) s).out = some o) :
    resourceProjectRead conn d s =
      ⟨[], ((d.Set .name o.Name).Set .space_name o.SpaceName).Set .description o.Description,
        (findProjectByName conn d.Id (aws.String (d.Get .space_name)) s).remote,
        (findProjectByName conn d.Id (aws.String (d.Get .space_name)) s).calls⟩ := by
  unfold resourceProjectRead
  simp only [he, ho, tfresource.NotFound, errs.IsA, Bool.and_false, Bool.false_eq_true,
    if_false]

/-! ## C3 -/

/-- C3: for a record that is not newly created, when `findProjectByName`
returns a not-found error, `resourceProjectRead` returns no diagnostics and
the record afterwards is the record before with its identifier set to the
empty string: no other field is written. -/
theorem C3_read_drift_detection {σ : Type} (conn : Client σ) (d : ResourceData) (s : σ)
    (hnew : d.IsNewResource = false)
    (hnf : tfresource.NotFound
      (findProjectByName conn d.Id (aws.String (d.Get .space_name)) s).err = true) :
    (resourceProjectRead conn d s).diags = [] ∧
    (resourceProjectRead conn d s).d.Id = "" ∧
    (resourceProjectRead conn d s).d = { d with id := "" } := by
  rw [resourceProjectRead_of_drift conn d s hnew hnf]
  exact ⟨rfl, rfl, rfl⟩

/-- C3, at the sample remote holding no project and the record of `p-1`. -/
theorem C3_read_drift_detection_witness :
    (resourceProjectRead memService editedRecord none).diags = [] ∧
    (resourceProjectRead memService editedRecord none).d.Id = "" ∧
    (resourceProjectRead memService editedRecord none).d = { editedRecord with id := "" } :=
  C3_read_drift_detection memService editedRecord none (by decide) (by decide)

/-! ## C4 -/

/-- C4: for a newly created record, when `findProjectByName` returns a
not-found error, `resourceProjectRead` returns exactly one diagnostic, tagged
`reading` and with the identifier of the record, and leaves the record,
identifier included, as it was. -/
theorem C4_read_missing_after_create_fatal {σ : Type} (conn : Client σ) (d : ResourceData)
    (s : σ) (hnew : d.IsNewResource = true)
    (hnf : tfresource.NotFound
      (findProjectByName conn d.Id (aws.String (d.Get .space_name)) s).err = true) :
    ∃ e, (findProjectByName conn d.Id (aws.String (d.Get .space_name)) s).err = some e ∧
      (resourceProjectRead conn d s).diags =
        [{ Severity := .Error, Service := "codecatalyst", Action := "reading",
           Resource := "Project", ID := d.Id, Err := e }] ∧
      (resourceProjectRead conn d s).diags.length = 1 ∧
      (resourceProjectRead conn d s).d = d := by
  cases herr : (findProjectByName conn d.Id (aws.String (d.Get .space_name)) s).err with
  | none => rw [herr] at hnf; exact absurd hnf (by decide)
  | some e =>
    refine ⟨e, rfl, ?_⟩
    rw [resourceProjectRead_of_error conn d s e (Or.inl hnew) herr]
    exact ⟨rfl, rfl, rfl⟩

/-- C4, at the sample remote holding no project and a record flagged new. -/
theorem C4_read_missing_after_create_fatal_witness :
    ∃ e, (findProjectByName memService freshRecord.Id
            (aws.String (freshRecord.Get .space_name)) none).err = some e ∧
      (resourceProjectRead memService freshRecord none).diags =
        [{ Severity := .Error, Service := "codecatalyst", Action := "reading",
           Resource := "Project", ID := freshRecord.Id, Err := e }] ∧
      (resourceProjectRead memService freshRecord none).diags.length = 1 ∧
      (resourceProjectRead memService freshRecord none).d = freshRecord :=
  C4_read_missing_after_create_fatal memService freshRecord none (by decide) (by decide)

/-! ## C5 -/

/-- C5: for every record, Read against a remote whose get call fails with an
access-denied error and Read against a remote whose get call fails with a
resource-not-found error leave the same record and the same number of
diagnostics, and `findProjectByName` answers both with a `NotFoundError`
that wraps the cause and carries the request. -/
theorem C5_read_access_denied_as_not_found {σ τ : Type} (conn1 : Client σ)
    (conn2 : Client τ) (d : ResourceData) (s1 : σ) (s2 : τ)
    (hAD : errs.IsA GoError.isAccessDeniedException
      (conn1.GetProject s1 (getRequest d)).1.2 = true)
    (hNF : errs.IsA GoError.isResourceNotFoundException
      (conn2.GetProject s2 (getRequest d)).1.2 = true) :
    (resourceProjectRead conn1 d s1).d = (resourceProjectRead conn2 d s2).d ∧
    (resourceProjectRead conn1 d s1).diags.length =
      (resourceProjectRead conn2 d s2).diags.length ∧
    (∃ e1, (findProjectByName conn1 d.Id (aws.String (d.Get .space_name)) s1).err =
      some (.NotFoundError e1 (getRequest d))) ∧
    (∃ e2, (findProjectByName conn2 d.Id (aws.String (d.Get .space_name)) s2).err =
      some (.NotFoundError e2 (getRequest d))) := by
  unfold getRequest at hAD hNF ⊢
  cases h1 : (conn1.GetProject s1
      { Name := aws.String d.Id, SpaceName := aws.String (d.Get .space_name) }).1.2 with
  | none => rw [h1] at hAD; exact absurd hAD (by decide)
  | some e1 =>
    cases h2 : (conn2.GetProject s2
        { Name := aws.String d.Id, SpaceName := aws.String (d.Get .space_name) }).1.2 with
    | none => rw [h2] at hNF; exact absurd hNF (by decide)
    | some e2 =>
      rw [h1] at hAD
      rw [h2] at hNF
      have k1 : (errors.As GoError.isAccessDeniedException e1
          || errors.As GoError.isResourceNotFoundException e1) = true := by
        simp only [errs.IsA] at hAD
        simp [hAD]
      have k2 : (errors.As GoError.isAccessDeniedException e2
          || errors.As GoError.isResourceNotFoundException e2) = true := by
        simp only [errs.IsA] at hNF
        simp [hNF]
      have f1 := findProjectByName_of_masked conn1 d.Id _ s1 e1 h1 k1
      have f2 := findProjectByName_of_masked conn2 d.Id _ s2 e2 h2 k2
      refine ⟨?_, ?_, ⟨e1, by rw [f1]⟩, ⟨e2, by rw [f2]⟩⟩
      · cases hnew : d.IsNewResource with
        | false =>
          rw [resourceProjectRead_of_drift conn1 d s1 hnew (by rw [f1]; rfl),
            resourceProjectRead_of_drift conn2 d s2 hnew (by rw [f2]; rfl)]
        | true =>
          rw [resourceProjectRead_of_error conn1 d s1 _ (Or.inl hnew) (by rw [f1]),
            resourceProjectRead_of_error conn2 d s2 _ (Or.inl hnew) (by rw [f2])]
      · cases hnew : d.IsNewResource with
        | false =>
          rw [resourceProjectRead_of_drift conn1 d s1 hnew (by rw [f1]; rfl),
            resourceProjectRead_of_drift conn2 d s2 hnew (by rw [f2]; rfl)]
        | true =>
          rw [resourceProjectRead_of_error conn1 d s1 _ (Or.inl hnew) (by rw [f1]),
            resourceProjectRead_of_error conn2 d s2 _ (Or.inl hnew) (by rw [f2])]
          rfl

/-- C5, at the remote that denies access and the sample remote holding no
project, for the record of `p-1`. -/
theorem C5_read_access_denied_as_not_found_witness :
    (resourceProjectRead deniedService editedRecord ()).d =
      (resourceProjectRead memService editedRecord none).d ∧
    (resourceProjectRead deniedService editedRecord ()).diags.length =
      (resourceProjectRead memService editedRecord none).diags.length ∧
    (∃ e1, (findProjectByName deniedService editedRecord.Id
        (aws.String (editedRecord.Get .space_name)) ()).err =
      some (.NotFoundError e1 (getRequest editedRecord))) ∧
    (∃ e2, (findProjectByName memService editedRecord.Id
        (aws.String (editedRecord.Get .space_name)) none).err =
      some (.NotFoundError e2 (getRequest editedRecord))) :=
  C5_read_access_denied_as_not_found deniedService memService editedRecord () none
    (by decide) (by decide)

/-! ## C9 -/

/-- C9: for every record, when the get call returns no error and a nil
response or a response without a name, `findProjectByName` returns no object
and the empty-result error, and `resourceProjectRead` returns one diagnostic
tagged `reading` and leaves the record, identifier included, as it was. -/
theorem C9_read_empty_response_fatal {σ : Type} (conn : Client σ) (d : ResourceData) (s : σ)
    (he : (conn.GetProject s (getRequest d)).1.2 = none)
    (ho : ∀ o, (conn.GetProject s (getRequest d)).1.1 = some o → o.Name = none) :
    (findProjectByName conn d.Id (aws.String (d.Get .space_name)) s).out = none ∧
    (findProjectByName conn d.Id (aws.String (d.Get .space_name)) s).err =
      some (tfresource.NewEmptyResultError (getRequest d)) ∧
    (resourceProjectRead conn d s).diags =
      [{ Severity := .Error, Service := "codecatalyst", Action := "reading",
         Resource := "Project", ID := d.Id,
         Err := tfresource.NewEmptyResultError (getRequest d) }] ∧
    (resourceProjectRead conn d s).d = d := by
  unfold getRequest at he ho ⊢
  have f := findProjectByName_of_nameless conn d.Id _ s he ho
  refine ⟨by rw [f], by rw [f]; rfl, ?_⟩
  rw [resourceProjectRead_of_error conn d s
    (.EmptyResultError { Name := aws.String d.Id, SpaceName := aws.String (d.Get .space_name) })
    (Or.inr rfl) (by rw [f])]
  exact ⟨rfl, rfl⟩

/-- C9, at the remote whose get response has no name, for a record that is
not newly created. -/
theorem C9_read_empty_response_fatal_witness :
    (findProjectByName namelessService editedRecord.Id
      (aws.String (editedRecord.Get .space_name)) ()).out = none ∧
    (findProjectByName namelessService editedRecord.Id
      (aws.String (editedRecord.Get .space_name)) ()).err =
      some (tfresource.NewEmptyResultError (getRequest editedRecord)) ∧
    (resourceProjectRead namelessService editedRecord ()).diags =
      [{ Severity := .Error, Service := "codecatalyst", Action := "reading",
         Resource := "Project", ID := editedRecord.Id,
         Err := tfresource.NewEmptyResultError (getRequest editedRecord) }] ∧
    (resourceProjectRead namelessService editedRecord ()).d = editedRecord :=
  C9_read_empty_response_fatal namelessService editedRecord () (by decide)
    (fun o h => by
      have h2 : o = { Name := none, DisplayName := none, SpaceName := none,
                      Description := none } := (Option.some.inj h).symm
      rw [h2])

/-! ## C6 -/

/-- C6: when the create call succeeds with a name `n` and the get call that
follows for `n` and the space of the record succeeds with an object that has
a name, `resourceProjectCreate` returns no diagnostics, the identifier of
the record is `n`, the name from the create response, and the description of
the record is the one in the get response. -/
theorem C6_create_read_round_trip {σ : Type} (conn : Client σ) (d : ResourceData) (s : σ)
    (cout : CreateProjectOutput) (n : String) (gout : GetProjectOutput)
    (hce : (conn.CreateProject s (createRequest d)).1.2 = none)
    (hco : (conn.CreateProject s (createRequest d)).1.1 = some cout)
    (hn : cout.Name = some n)
    (hge : (conn.GetProject (conn.CreateProject s (createRequest d)).2
      { Name := some n, SpaceName := some (d.Get .space_name) }).1.2 = none)
    (hgo : (conn.GetProject (conn.CreateProject s (createRequest d)).2
      { Name := some n, SpaceName := some (d.Get .space_name) }).1.1 = some gout)
    (hgn : gout.Name ≠ none) :
    (resourceProjectCreate conn d s).diags = [] ∧
    (resourceProjectCreate conn d s).d.Id = n ∧
    (resourceProjectCreate conn d s).d.Get .description = aws.ToString gout.Description := by
  unfold createRequest at hce hco hge hgo
  have hf := findProjectByName_of_found conn n (aws.String (d.Get .space_name))
    (conn.CreateProject s
      { DisplayName := aws.String (d.Get .display_name),
        SpaceName := aws.String (d.Get .space_name),
        Description := aws.String (d.Get .description) }).2 gout hge hgo hgn
  have hr := resourceProjectRead_of_found conn (d.SetId n)
    (conn.CreateProject s
      { DisplayName := aws.String (d.Get .display_name),
        SpaceName := aws.String (d.Get .space_name),
        Description := aws.String (d.Get .description) }).2 gout
    (by show (findProjectByName conn n (aws.String (d.Get .space_name)) _).err = none
        rw [hf])
    (by show (findProjectByName conn n (aws.String (d.Get .space_name)) _).out = some gout
        rw [hf])
  unfold resourceProjectCreate
  simp only [hce, hco, hn, aws.ToString, Option.getD_some, reduceCtorEq, if_false]
  rw [hr]
  exact ⟨rfl, rfl, rfl⟩

/-- C6, at the normalizing remote: the identifier is `proj1` from the create
response, not `PROJ1` from the get response, and the description is `n/a`
from the get response, not the empty string that was sent. -/
theorem C6_create_read_round_trip_witness :
    (resourceProjectCreate normalizingService plannedRecord ()).diags = [] ∧
    (resourceProjectCreate normalizingService plannedRecord ()).d.Id = "proj1" ∧
    (resourceProjectCreate normalizingService plannedRecord ()).d.Get .description =
      aws.ToString (some "n/a") :=
  C6_create_read_round_trip normalizingService plannedRecord ()
    { Name := some "proj1", DisplayName := some "proj1", SpaceName := some "space1",
      Description := some "" }
    "proj1"
    { Name := some "PROJ1", DisplayName := some "proj1", SpaceName := some "space1",
      Description := some "n/a" }
    (by decide) (by decide) rfl (by decide) (by decide) (by decide)

/-! ## Update: lemmas -/

theorem hasChanges_description_iff (d : ResourceData) :
    d.HasChanges [.description] = true ↔
      d.state.Attributes.description ≠ d.attrs.description := by
  simp [ResourceData.HasChanges, ResourceData.HasChange, Attrs.get]

theorem resourceProjectUpdate_of_unchanged {σ : Type} (conn : Client σ)
    (devRead : ResourceData → σ → Outcome σ) (d : ResourceData) (s : σ)
    (h : d.HasChanges [.description] = false) :
    resourceProjectUpdate conn devRead d s = ⟨[], d, s, []⟩ := by
  unfold resourceProjectUpdate
  simp only [h, Bool.not_false, if_true]

theorem resourceProjectUpdate_of_failure {σ : Type} (conn : Client σ)
    (devRead : ResourceData → σ → Outcome σ) (d : ResourceData) (s : σ) (e : GoError)
    (h : d.HasChanges [.description] = true)
    (he : (conn.UpdateProject s (updateRequest d)).1 = some e) :
    resourceProjectUpdate conn devRead d s =
      ⟨create.DiagError names.CodeCatalyst create.ErrActionUpdating ResNameProject d.Id e,
        d, (conn.UpdateProject s (updateRequest d)).2,
        [.UpdateProject (updateRequest d)]⟩ := by
  unfold updateRequest at he ⊢
  unfold resourceProjectUpdate
  simp only [h, Bool.not_true, Bool.false_eq_true, if_false, if_true, he]

theorem resourceProjectUpdate_of_success {σ : Type} (conn : Client σ)
    (devRead : ResourceData → σ → Outcome σ) (d : ResourceData) (s : σ)
    (h : d.HasChanges [.description] = true)
    (he : (conn.UpdateProject s (updateRequest d)).1 = none) :
    resourceProjectUpdate conn devRead d s =
      ⟨(devRead d (conn.UpdateProject s (updateRequest d)).2).diags,
        (devRead d (conn.UpdateProject s (updateRequest d)).2).d,
        (devRead d (conn.UpdateProject s (updateRequest d)).2).remote,
        .UpdateProject (updateRequest d) ::
          (devRead d (conn.UpdateProject s (updateRequest d)).2).calls⟩ := by
  unfold updateRequest at he ⊢
  unfold resourceProjectUpdate
  simp only [h, Bool.not_true, Bool.false_eq_true, if_false, if_true, he]

/-! ## C2 -/

/-- C2: among the requests `resourceProjectUpdate` sends there is an
`UpdateProject` request exactly when the description of the record has
changed; when the description is unchanged, whatever the other fields and
the identifier are, it sends no request at all, returns no diagnostics and
leaves the record and the remote as they were. -/
theorem C2_update_noop_unless_description_changed {σ : Type} (conn : Client σ)
    (devRead : ResourceData → σ → Outcome σ) (d : ResourceData) (s : σ) :
    ((∃ u, Call.UpdateProject u ∈ (resourceProjectUpdate conn devRead d s).calls) ↔
      d.state.Attributes.description ≠ d.attrs.description) ∧
    (d.state.Attributes.description = d.attrs.description →
      (resourceProjectUpdate conn devRead d s).calls = [] ∧
      (resourceProjectUpdate conn devRead d s).diags = [] ∧
      (resourceProjectUpdate conn devRead d s).d = d ∧
      (resourceProjectUpdate conn devRead d s).remote = s) := by
  have key := hasChanges_description_iff d
  cases hc : d.HasChanges [.description] with
  | false =>
    have hne : ¬ (d.state.Attributes.description ≠ d.attrs.description) := by
      intro h
      have := key.mpr h
      rw [hc] at this
      exact absurd this (by decide)
    rw [resourceProjectUpdate_of_unchanged conn devRead d s hc]
    refine ⟨⟨?_, fun h => absurd h hne⟩, fun _ => ⟨rfl, rfl, rfl, rfl⟩⟩
    rintro ⟨u, hu⟩
    exact absurd hu (List.not_mem_nil _)
  | true =>
    have hne : d.state.Attributes.description ≠ d.attrs.description := key.mp hc
    refine ⟨⟨fun _ => hne, fun _ => ?_⟩, fun h => absurd h hne⟩
    cases he : (conn.UpdateProject s (updateRequest d)).1 with
    | none =>
      rw [resourceProjectUpdate_of_success conn devRead d s hc he]
      exact ⟨updateRequest d, List.mem_cons_self _ _⟩
    | some e =>
      rw [resourceProjectUpdate_of_failure conn devRead d s e hc he]
      exact ⟨updateRequest d, List.mem_cons_self _ _⟩

/-! ## C8 -/

/-- C8 (what the code does at a failing input): the sample remote stores
`p-1`, the description of the record has changed and the update call
succeeds. Whatever `resourceDevEnvironmentRead` is, the diagnostics and the
record `resourceProjectUpdate` returns are those of
`resourceDevEnvironmentRead` on the record after the update call; with a
read of another resource kind that clears the identifier, the record differs
from the one `resourceProjectRead` leaves, which keeps the identifier `p-1`. -/
theorem C8_update_refreshes_through_other_read :
    (memService.UpdateProject (some storedSynced) (updateRequest syncedRecord)).1 = none ∧
    (∀ devRead : ResourceData → Option GetProjectOutput → Outcome (Option GetProjectOutput),
      (resourceProjectUpdate memService devRead syncedRecord (some storedSynced)).diags =
        (devRead syncedRecord
          (memService.UpdateProject (some storedSynced) (updateRequest syncedRecord)).2).diags ∧
      (resourceProjectUpdate memService devRead syncedRecord (some storedSynced)).d =
        (devRead syncedRecord
          (memService.UpdateProject (some storedSynced) (updateRequest syncedRecord)).2).d) ∧
    (resourceProjectUpdate memService foreignRead syncedRecord (some storedSynced)).d.Id = "" ∧
    (resourceProjectRead memService syncedRecord
      (memService.UpdateProject (some storedSynced) (updateRequest syncedRecord)).2).d.Id
      = "p-1" ∧
    (resourceProjectUpdate memService foreignRead syncedRecord (some storedSynced)).d ≠
      (resourceProjectRead memService syncedRecord
        (memService.UpdateProject (some storedSynced) (updateRequest syncedRecord)).2).d := by
  refine ⟨by decide, fun devRead => ?_, by decide, by decide, by decide⟩
  rw [resourceProjectUpdate_of_success memService devRead syncedRecord (some storedSynced)
    (by decide) (by decide)]
  exact ⟨rfl, rfl⟩

/-! ## C10 -/

/-- C10 (what the code does at a failing input): for the record with
identifier `p-1` and display name `My Project` whose description has
changed, the one request `resourceProjectUpdate` sends is an `UpdateProject`
request whose name is the display name `My Project`, not the identifier; its
space and description are those of the record. The sample remote, which
stores the project under `p-1`, answers not-found and the operation returns
a diagnostic tagged `updating`. -/
theorem C10_update_request_named_by_display_name :
    ∀ devRead : ResourceData → Option GetProjectOutput → Outcome (Option GetProjectOutput),
      (resourceProjectUpdate memService devRead editedRecord (some storedProject)).calls =
        [.UpdateProject { Name := some "My Project", SpaceName := some "space1",
                          Description := some "new" }] ∧
      some editedRecord.Id ≠ some "My Project" ∧
      (resourceProjectDelete memService editedRecord (some storedProject)).calls =
        [.DeleteProject { Name := some "p-1", SpaceName := some "space1" }] ∧
      (resourceProjectUpdate memService devRead editedRecord (some storedProject)).diags =
        [{ Severity := .Error, Service := "codecatalyst", Action := "updating",
           Resource := "Project", ID := "p-1", Err := sampleNotFound }] := by
  intro devRead
  rw [resourceProjectUpdate_of_failure memService devRead editedRecord (some storedProject)
    sampleNotFound (by decide) (by decide)]
  exact ⟨by decide, by decide, by decide, by decide⟩

end codecatalyst
